import Mathlib

/-!
Verification of the Storymaker pipeline (`backend/pipeline/story_maker.py`,
`backend/models/models.py`) via a shallow embedding in Lean.

Conventions of the embedding:
* Python strings are Lean `String`s; the scanners work on `List Char`.
* Python `re.findall` with the two patterns used by `StoryMaker.parse_scenes`
  and `StoryMaker.generate_image_prompts` is embedded by a deterministic
  left-to-right scanner whose behaviour was derived from the backtracking
  semantics of the patterns (greedy `\s*` tried longest first, lazy `(.*?)`
  shortest first, lookahead consuming nothing).  `\s` and `\d` are modelled
  over their ASCII ranges.
* The filesystem of one project folder is a list of file names; external
  backends (diffusion pipe, gTTS, Ollama) are parameters returning
  success/failure, and raised Python exceptions are `Option.none` results.
-/

/-- Python `\s` (ASCII range): space, tab, newline, vertical tab, form feed,
carriage return. -/
def isPySpace (c : Char) : Bool :=
  (c == ' ') || (c == '\t') || (c == '\n') ||
  (c == Char.ofNat 11) || (c == Char.ofNat 12) || (c == '\r')

/-- Python `\d` (ASCII range). -/
def isPyDigit (c : Char) : Bool := ('0' ≤ c) && (c ≤ '9')

/-- strip leading and trailing Python whitespace from a character list,
modelling `str.strip()`. -/
def pyStripL (l : List Char) : List Char :=
  ((l.dropWhile isPySpace).reverse.dropWhile isPySpace).reverse

/-- strip leading and trailing whitespace, modelling `str.strip()`. -/
def pyStrip (s : String) : String := (pyStripL s.toList).asString

/-- numeric value of a base-10 digit list, modelling `int()` applied to the
digit group captured by `(\d+)`. -/
def natOfDigits (l : List Char) : Nat :=
  l.foldl (fun a c => 10 * a + (c.toNat - 48)) 0

/-- strip a literal from the front of a list, or fail. -/
def stripPre? : List Char → List Char → Option (List Char)
  | [], l => some l
  | _ :: _, [] => none
  | a :: as, b :: bs => if a = b then stripPre? as bs else none

/-- split a list at the first occurrence of a literal: returns the part
before the occurrence and the part after it.  This is how a lazy `(.*?)`
followed by a literal behaves. -/
def findSplit (needle : List Char) : List Char → Option (List Char × List Char)
  | [] => if needle.isEmpty then some ([], []) else none
  | c :: rest =>
    if needle.isPrefixOf (c :: rest) then some ([], (c :: rest).drop needle.length)
    else
      match findSplit needle rest with
      | some (pre, post) => some (c :: pre, post)
      | none => none

/-- literal `Scene`. -/
def sceneLit : List Char := ['S', 'c', 'e', 'n', 'e']

/-- literal `Description:`. -/
def descTail : List Char :=
  ['D', 'e', 's', 'c', 'r', 'i', 'p', 't', 'i', 'o', 'n', ':']

/-- literal newline followed by `Description:`. -/
def descLit : List Char := '\n' :: descTail

/-- match `Scene\s*(\d+):` at the head of the list; on success return the
digit group and the remainder after the colon.  The sub-pattern is
deterministic because whitespace, digits and `:` are pairwise disjoint. -/
def numSplit? (l : List Char) : Option (List Char × List Char) :=
  match stripPre? sceneLit l with
  | none => none
  | some r1 =>
    let r2 := r1.dropWhile isPySpace
    let ds := r2.takeWhile isPyDigit
    if ds.isEmpty then none
    else
      match r2.drop ds.length with
      | ':' :: q => some (ds, q)
      | _ => none

/-- does `Scene\s*\d+:` match at the head of the list? -/
def sceneStartAt (l : List Char) : Bool := (numSplit? l).isSome

/-- does the lookahead `\nScene\s*\d+:` match at the head of the list? -/
def sceneMarkerAt (l : List Char) : Bool :=
  match l with
  | '\n' :: rest => sceneStartAt rest
  | _ => false

/-- take characters until the first position where `\nScene\s*\d+:`
matches (or the end of input): the behaviour of the lazy `(.*?)` before the
lookahead `(?=\nScene\s*\d+:|\Z)`. -/
def takeUntilMarker : List Char → List Char × List Char
  | [] => ([], [])
  | c :: rest =>
    if sceneMarkerAt (c :: rest) then ([], c :: rest)
    else
      let p := takeUntilMarker rest
      (c :: p.1, p.2)

/-- raw groups of one `parse_scenes` match: the digit group, the summary
group and the description group, before trimming. -/
structure RawM where
  num : List Char
  summary : List Char
  descr : List Char
deriving DecidableEq, Repr

/-- attempt the pattern
`Scene\s*(\d+):\s*(.*?)\nDescription:\s*(.*?)(?=\nScene\s*\d+:|\Z)`
(DOTALL) at the head of the list.  On success return the three groups and
the remainder of the input after the match (the lookahead consumes
nothing).  After `:` the greedy `\s*` takes the maximal whitespace run
first; the lazy summary then stops at the first later `\nDescription:`.
If none exists the engine backtracks one whitespace character: that can
only succeed when the run ends with a newline directly followed by
`Description:`, giving an empty summary group. -/
def tryMatch (l : List Char) : Option (RawM × List Char) :=
  match numSplit? l with
  | none => none
  | some (ds, q) =>
    let w := q.takeWhile isPySpace
    let afterWs := q.drop w.length
    match findSplit descLit afterWs with
    | some (pre, post) =>
      let w2 := post.takeWhile isPySpace
      let p := takeUntilMarker (post.drop w2.length)
      some (⟨ds, pre, p.1⟩, p.2)
    | none =>
      if w.getLast? = some '\n' && descTail.isPrefixOf afterWs then
        let post := afterWs.drop descTail.length
        let w2 := post.takeWhile isPySpace
        let p := takeUntilMarker (post.drop w2.length)
        some (⟨ds, [], p.1⟩, p.2)
      else none

/-- fueled scan for all non-overlapping matches, left to right, advancing
one character after a failed attempt and past the match otherwise, the
semantics of `re.findall`. -/
def findAllF : Nat → List Char → List RawM
  | 0, _ => []
  | _ + 1, [] => []
  | fuel + 1, c :: rest =>
    match tryMatch (c :: rest) with
    | some (g, rest') => g :: findAllF fuel rest'
    | none => findAllF fuel rest

/-- all matches of the scene pattern in the input. -/
def findAllL (l : List Char) : List RawM := findAllF (l.length + 1) l

/-- structured scene record produced by `parse_scenes`: the parsed scene
number and the trimmed summary and description. -/
structure SceneR where
  scene : Int
  summary : String
  description : String
deriving DecidableEq, Repr

/-- convert the raw groups of one match into a scene record, modelling the
dict comprehension in `parse_scenes`. -/
def toScene (m : RawM) : SceneR :=
  ⟨(natOfDigits m.num : Int), (pyStripL m.summary).asString, (pyStripL m.descr).asString⟩

/-- list-level `StoryMaker.parse_scenes`. -/
def parseScenesL (l : List Char) : List SceneR := (findAllL l).map toScene

/-- embedding of `StoryMaker.parse_scenes`. -/
def parseScenes (s : String) : List SceneR := parseScenesL s.toList

example : parseScenes "" = [] := by decide
example : parseScenes "Scene 1: s1\nDescription: d1\nScene 2: s2\nDescription: d2" =
    [⟨1, "s1", "d1"⟩, ⟨2, "s2", "d2"⟩] := by decide
example : parseScenes "Scene 1:\nDescription: d" = [⟨1, "", "d"⟩] := by decide
example : parseScenes "Scene 1:\nDescription: d1\nScene 2: s2\nDescription: d2" =
    [⟨1, "Description: d1\nScene 2: s2", "d2"⟩] := by decide
example : parseScenes "Scene 7: x\nScene 1: s\nDescription: d" =
    [⟨7, "x\nScene 1: s", "d"⟩] := by decide
example : parseScenes "Scene 1: s\nDescription: \nScene 2: t\nDescription: d2" =
    [⟨1, "s", "Scene 2: t\nDescription: d2"⟩] := by decide
example : parseScenes "Scene   12:   sum  \nDescription:   desc here" =
    [⟨12, "sum", "desc here"⟩] := by decide
example : parseScenes "Scene 1: a\nDescription: b\nScene 1: c\nDescription: d" =
    [⟨1, "a", "b"⟩, ⟨1, "c", "d"⟩] := by decide
example : parseScenes "Scene 1: s\nDescription: d\nScene42: t2\nDescription: e" =
    [⟨1, "s", "d"⟩, ⟨42, "t2", "e"⟩] := by decide
example : parseScenes "no scenes" = [] := by decide

/-- attempt the image-prompt pattern
`Scene\s*(\d+):\s*(.*?)(?=\nScene\s*\d+:|\Z)` (DOTALL) at the head of the
list; on success return (digit group, prompt group) and the remainder. -/
def tryMatchP (l : List Char) : Option ((List Char × List Char) × List Char) :=
  match numSplit? l with
  | none => none
  | some (ds, q) =>
    let w := q.takeWhile isPySpace
    let p := takeUntilMarker (q.drop w.length)
    some ((ds, p.1), p.2)

/-- fueled `re.findall` scan for the image-prompt pattern. -/
def findAllPF : Nat → List Char → List (List Char × List Char)
  | 0, _ => []
  | _ + 1, [] => []
  | fuel + 1, c :: rest =>
    match tryMatchP (c :: rest) with
    | some (g, rest') => g :: findAllPF fuel rest'
    | none => findAllPF fuel rest

/-- all matches of the image-prompt pattern in the input. -/
def findAllPL (l : List Char) : List (List Char × List Char) :=
  findAllPF (l.length + 1) l

/-- insert a key into an association list with Python `dict` semantics:
an existing key keeps its position and gets the new value (last write
wins), a new key is appended. -/
def dictInsert (m : List (Int × String)) (k : Int) (v : String) : List (Int × String) :=
  if m.any (fun p => p.1 == k) then m.map (fun p => if p.1 == k then (k, v) else p)
  else m ++ [(k, v)]

/-- Python `dict.get`. -/
def dget (m : List (Int × String)) (k : Int) : Option String :=
  (m.find? (fun p => p.1 == k)).map (fun p => p.2)

/-- embedding of the parsing part of `StoryMaker.generate_image_prompts`:
the dict comprehension over the matches of the prompt pattern. -/
def parseImagePrompts (s : String) : List (Int × String) :=
  (findAllPL s.toList).foldl
    (fun m g => dictInsert m (natOfDigits g.1 : Int) (pyStripL g.2).asString) []

example : parseImagePrompts "Scene 1: p1\nScene 2: p2" = [(1, "p1"), (2, "p2")] := by decide
example : parseImagePrompts "Scene 1: p1\nScene 2: p2\nScene 1: p1b" =
    [(1, "p1b"), (2, "p2")] := by decide
example : parseImagePrompts "Scene 1: \nScene 2: p2" = [(1, "Scene 2: p2")] := by decide

/-- name of the image artifact of a scene, `scene_{n}.png`. -/
def imgName (n : Int) : String := "scene_" ++ toString n ++ ".png"

/-- name of the narration artifact of a scene, `scene_{n}.mp3`. -/
def mp3Name (n : Int) : String := "scene_" ++ toString n ++ ".mp3"

/-- add a file to a project folder; a second write to the same name leaves
the set of names unchanged. -/
def addFile (fs : List String) (f : String) : List String :=
  if f ∈ fs then fs else fs ++ [f]

/-- observable state of one `generate_images_and_audio` run: the files in
the project folder, the image-backend invocations (scene number and the
prompt argument passed to `self.pipe`, `none` when `image_prompts.get`
returned `None`), and the narration invocations (scene number, text). -/
structure MediaState where
  files : List String
  imageCalls : List (Int × Option String)
  ttsCalls : List (Int × String)
deriving DecidableEq, Repr

/-- one iteration of the loop in `StoryMaker.generate_images_and_audio`:
the image backend is invoked unconditionally with `image_prompts.get(n)`
(its failure is caught per scene); narration runs only for a non-empty
stripped description and only when `scene_{n}.mp3` does not already
exist, with failure likewise caught per scene. -/
def processScene (pipeOk : Option String → Bool) (ttsOk : String → Bool)
    (prompts : List (Int × String)) (st : MediaState) (sc : SceneR) : MediaState :=
  let prompt := dget prompts sc.scene
  let descr := pyStrip sc.description
  let st1 : MediaState :=
    { st with
      imageCalls := st.imageCalls ++ [(sc.scene, prompt)]
      files := if pipeOk prompt then addFile st.files (imgName sc.scene) else st.files }
  if descr = "" then st1
  else if mp3Name sc.scene ∈ st1.files then st1
  else
    let st2 := { st1 with ttsCalls := st1.ttsCalls ++ [(sc.scene, descr)] }
    if ttsOk descr then { st2 with files := addFile st2.files (mp3Name sc.scene) } else st2

/-- embedding of `StoryMaker.generate_images_and_audio`: iterate every
scene of the parsed scene list over the project folder `files0`. -/
def generateImagesAndAudio (pipeOk : Option String → Bool) (ttsOk : String → Bool)
    (prompts : List (Int × String)) (scenes : List SceneR) (files0 : List String) : MediaState :=
  scenes.foldl (processScene pipeOk ttsOk prompts) ⟨files0, [], []⟩

/-- Python `int(s)` on a character list, restricted to ASCII: optional
surrounding whitespace, optional sign, at least one digit; anything else
raises (`none`). -/
def pyIntL (l0 : List Char) : Option Int :=
  let l := l0.dropWhile isPySpace
  let core :=
    match l with
    | '+' :: r => ((1 : Int), r)
    | '-' :: r => ((-1 : Int), r)
    | r => ((1 : Int), r)
  let ds := core.2.takeWhile isPyDigit
  if ds.isEmpty then none
  else if (core.2.drop ds.length).all isPySpace then some (core.1 * (natOfDigits ds : Int))
  else none

/-- Python `int(s)`. -/
def pyInt (s : String) : Option Int := pyIntL s.toList

/-- fueled split of a list at every occurrence of a non-empty separator,
the semantics of Python `str.split(sep)`. -/
def pySplitF (sep : List Char) : Nat → List Char → List (List Char)
  | 0, l => [l]
  | fuel + 1, l =>
    match findSplit sep l with
    | none => [l]
    | some (pre, post) => pre :: pySplitF sep fuel post

/-- Python `str.split(sep)` for a non-empty separator. -/
def pySplit (sep : List Char) (l : List Char) : List (List Char) :=
  pySplitF sep (l.length + 1) l

example : pySplit ['_'] "scene_10.png".toList = ["scene".toList, "10.png".toList] := by decide
example : pySplit ['.'] "10.png".toList = ["10".toList, "png".toList] := by decide
example : pySplit ['_'] "a__b".toList = ["a".toList, [], "b".toList] := by decide

example : pyInt "12" = some 12 := by decide
example : pyInt " 12 " = some 12 := by decide
example : pyInt "+5" = some 5 := by decide
example : pyInt "-5" = some (-5) := by decide
example : pyInt "" = none := by decide
example : pyInt "1 2" = none := by decide
example : pyInt "1.2" = none := by decide

/-- the `pathlib` suffix of a file name: the part from the last dot on,
empty when there is no dot, the dot is the first character, or the dot is
the last character. -/
def pySuffix (f : String) : String :=
  let l := f.toList
  let k := l.reverse.takeWhile (fun c => !(c == '.'))
  if k.length = l.length then ""
  else if k.length = 0 then ""
  else if l.length - k.length - 1 = 0 then ""
  else ('.' :: k.reverse).asString

example : pySuffix "scene_1.png" = ".png" := by decide
example : pySuffix "scene_1." = "" := by decide
example : pySuffix "scene_1" = "" := by decide
example : pySuffix ".png" = "" := by decide
example : pySuffix "scene_1.tar.png" = ".png" := by decide

/-- scene number extracted from a file name by
`int(f.name.split("_")[1].split(".")[0])`; `none` models the raised
`ValueError`/`IndexError`. -/
def extractNum (f : String) : Option Int :=
  match (pySplit ['_'] f.toList).get? 1 with
  | none => none
  | some part => pyIntL ((pySplit ['.'] part).headD [])

example : extractNum "scene_10.png" = some 10 := by decide
example : extractNum "scene_2.png" = some 2 := by decide
example : extractNum "scene_.png" = none := by decide

/-- discovery step of `StoryMaker.create_video_for_project`: keep the
files whose name starts with `scene_` and whose suffix is `.png`, extract
each number, and sort ascending numerically (`sorted`); `none` models a
raised conversion error. -/
def discoverNums (files : List String) : Option (List Int) :=
  let pngs := files.filter (fun f => "scene_".toList.isPrefixOf f.toList && pySuffix f == ".png")
  (pngs.mapM extractNum).map (List.insertionSort (· ≤ ·))

example : discoverNums ["scene_2.png", "scene_10.png", "scene_1.png"] = some [1, 2, 10] := by decide

/-- embedding of `StoryMaker.create_video_for_project` over the project
folder contents.  The outer `Option` is a raised exception; the inner
result is `none` for the `No scenes found for video` early return and
otherwise the ascending list of scene numbers whose clips are
concatenated into the written video. -/
def createVideoForProject (files : List String) : Option (Option (List Int)) :=
  match discoverNums files with
  | none => none
  | some nums =>
    let inc := nums.filter (fun n => files.contains (mp3Name n))
    if inc.isEmpty then some none else some (some inc)

example : createVideoForProject [] = some none := by decide
example : createVideoForProject ["scene_2.png", "scene_1.png", "scene_1.mp3"] =
    some (some [1]) := by decide

/-- embedding of `StoryMaker.sanitize_filename`. -/
def sanitizeFilename (t : String) : String :=
  (t.toList.map (fun c =>
    if c ∈ ['\\', '/', '*', '?', ':', '"', '<', '>', '|'] then '_' else c)).asString

example : sanitizeFilename "a/b:c" = "a_b_c" := by decide

/-- embedded `models.Scene` document (`scene`, `summary`, `description`,
all required). -/
structure SceneDoc where
  scene : Int
  summary : String
  description : String
deriving DecidableEq, Repr

/-- embedded `models.Story` document as far as the pipeline populates it. -/
structure StoryDoc where
  story_id : String
  title : String
  genre : String
  story_idea : String
  raw_scenes_text : String
  scenes : List SceneDoc
  image_prompts : List (String × String)
  raw_image_prompts : String
  folder : String
deriving DecidableEq, Repr

/-- declaration of `Story.story_id` in `models/models.py`:
`StringField(required=True, unique=True)`. -/
structure FieldSpec where
  required : Bool
  unique : Bool
deriving DecidableEq, Repr

/-- the schema flags of the `story_id` field. -/
def storyIdField : FieldSpec := ⟨true, true⟩

/-- embedding of `StoryMaker.save_story_to_mongo`; `uuid` is the string of
the freshly generated `uuid.uuid4()`. -/
def saveStoryToMongo (uuid : String) (genre : String) (title : String) (idea : String)
    (scenes : List SceneR) (rawScenesText : String) (imagePrompts : List (Int × String))
    (rawImagePrompts : String) (outputFolder : String) : StoryDoc :=
  { story_id := (uuid.toList.take 8).asString
    title := title
    genre := genre
    story_idea := idea
    raw_scenes_text := rawScenesText
    scenes := scenes.map (fun s => ⟨s.scene, s.summary, s.description⟩)
    image_prompts := imagePrompts.map (fun p => (toString p.1, p.2))
    raw_image_prompts := rawImagePrompts
    folder := outputFolder }

/-- dictionary returned by `StoryMaker.create_story`.  `video_file` has an
optional type so that the spec's claim of a possibly-null video path is
statable; the code always stores `str(output_video)`. -/
structure StoryResultR where
  story_id : String
  story_folder : String
  video_file : Option String
  title : String
  story_idea : String
  validation : String
  scenes : List SceneR
  image_prompts : List (Int × String)
deriving DecidableEq, Repr

/-- observable outcome of one `create_story` run: the persisted document,
the final project folder contents, the value returned by
`create_video_for_project` (which `create_story` discards), and the
returned dictionary. -/
structure CreateStoryOut where
  record : StoryDoc
  mediaFiles : List String
  videoResult : Option (List Int)
  result : StoryResultR
deriving DecidableEq, Repr

/-- embedding of `StoryMaker.create_story` for a run whose five
generation calls succeeded, parameterised by the generated texts (already
stripped by `query_llama2`), the fresh uuid string, the media backends and
the initial contents of the project folder.  `none` models an exception
escaping `create_story` (only possible out of
`create_video_for_project`). -/
def createStory (pipeOk : Option String → Bool) (ttsOk : String → Bool)
    (uuid : String) (genre : String) (idea : String) (validation : String)
    (title : String) (rawScenes : String) (rawPrompts : String)
    (files0 : List String) : Option CreateStoryOut :=
  let scenes := parseScenes rawScenes
  let prompts := parseImagePrompts rawPrompts
  let folderName := sanitizeFilename title
  let outputFolder := "story_outputs/" ++ folderName
  let record := saveStoryToMongo uuid genre title idea scenes rawScenes prompts rawPrompts outputFolder
  let media := generateImagesAndAudio pipeOk ttsOk prompts scenes files0
  match createVideoForProject media.files with
  | none => none
  | some videoRes =>
    some
      { record := record
        mediaFiles := media.files
        videoResult := videoRes
        result :=
          { story_id := record.story_id
            story_folder := outputFolder
            video_file := some (outputFolder ++ "/" ++ folderName ++ ".mp4")
            title := title
            story_idea := idea
            validation := validation
            scenes := scenes
            image_prompts := prompts } }

/-- one response of the Ollama endpoint as `query_llama2` observes it:
a transport error, or an HTTP status with an optional `response` string
field (`none` when reading the field raises). -/
inductive LResp where
  | transport : LResp
  | http : Nat → Option String → LResp
deriving DecidableEq, Repr

/-- result of one loop iteration of `query_llama2`: the text returned on
HTTP 200 with a readable `response` field, `none` in every other case
(non-200 status, transport error, unreadable body), which the loop
catches and retries. -/
def attemptSuccess : LResp → Option String
  | .http 200 (some t) => some (pyStrip t)
  | _ => none

/-- retry loop of `query_llama2`: `attempt` is the index of the next
attempt, the fuel is the number of remaining attempts.  Returns the
result (`none` is the final raise) and the total number of attempts
made. -/
def queryLoop (backend : Nat → LResp) (attempt : Nat) : Nat → Option String × Nat
  | 0 => (none, attempt)
  | fuel + 1 =>
    match attemptSuccess (backend attempt) with
    | some t => (some t, attempt + 1)
    | none => queryLoop backend (attempt + 1) fuel

/-- embedding of `StoryMaker.query_llama2` with `max_retries` attempts. -/
def queryLlama2 (backend : Nat → LResp) (maxRetries : Nat) : Option String × Nat :=
  queryLoop backend 0 maxRetries

example : queryLlama2 (fun _ => .transport) 3 = (none, 3) := by decide
example : queryLlama2 (fun _ => .http 500 (some "x")) 3 = (none, 3) := by decide
example : queryLlama2 (fun _ => .http 200 (some " hi ")) 3 = (some "hi", 1) := by decide
example : queryLlama2 (fun i => if i < 2 then .transport else .http 200 (some "ok")) 3 =
    (some "ok", 3) := by decide

/-! Lemmas about the retry loop of `query_llama2`. -/

theorem queryLoop_all_fail (backend : Nat → LResp) :
    ∀ fuel a, (∀ j, a ≤ j → j < a + fuel → attemptSuccess (backend j) = none) →
      queryLoop backend a fuel = (none, a + fuel) := by
  intro fuel
  induction fuel with
  | zero => intro a _; simp [queryLoop]
  | succ n ih =>
    intro a h
    have ha : attemptSuccess (backend a) = none := h a (Nat.le_refl a) (by omega)
    have : queryLoop backend (a + 1) n = (none, a + 1 + n) :=
      ih (a + 1) (fun j h1 h2 => h j (by omega) (by omega))
    simp [queryLoop, ha, this]
    omega

theorem queryLoop_success (backend : Nat → LResp) :
    ∀ fuel a i t, a ≤ i → i < a + fuel →
      (∀ j, a ≤ j → j < i → attemptSuccess (backend j) = none) →
      attemptSuccess (backend i) = some t →
      queryLoop backend a fuel = (some t, i + 1) := by
  intro fuel
  induction fuel with
  | zero => intro a i t h1 h2 _ _; omega
  | succ n ih =>
    intro a i t h1 h2 hfail hsucc
    rcases Nat.eq_or_lt_of_le h1 with rfl | hlt
    · simp [queryLoop, hsucc]
    · have ha : attemptSuccess (backend a) = none := hfail a (Nat.le_refl a) hlt
      have : queryLoop backend (a + 1) n = (some t, i + 1) :=
        ih (a + 1) i t (by omega) (by omega) (fun j hj1 hj2 => hfail j (by omega) hj2) hsucc
      simp [queryLoop, ha, this]

/-- C3: with `max_retries = 3` and a backend failing every attempt
(transport error or non-success status), `query_llama2` makes exactly 3
attempts and then raises (`none`, the `Failed to get response from Ollama
after retries.` exception); on an attempt returning HTTP 200 with a
readable `response` field it instead returns that field stripped of
surrounding whitespace. -/
theorem query_llama2_retry_policy (backend : Nat → LResp) :
    ((∀ i, i < 3 → attemptSuccess (backend i) = none) →
      queryLlama2 backend 3 = (none, 3)) ∧
    (∀ maxR i t, i < maxR → (∀ j, j < i → attemptSuccess (backend j) = none) →
      backend i = LResp.http 200 (some t) →
      queryLlama2 backend maxR = (some (pyStrip t), i + 1)) := by
  constructor
  · intro h
    have := queryLoop_all_fail backend 3 0 (fun j _ h2 => h j (by omega))
    simpa [queryLlama2] using this
  · intro maxR i t h1 h2 h3
    have hs : attemptSuccess (backend i) = some (pyStrip t) := by rw [h3]; rfl
    exact queryLoop_success backend maxR 0 i (pyStrip t) (Nat.zero_le i) (by omega)
      (fun j _ hj => h2 j hj) hs

/-- witness for C3: a backend whose every call is a transport error is
exhausted after exactly 3 attempts; a backend failing twice and then
returning 200 succeeds at attempt 3 with the stripped text. -/
theorem query_llama2_retry_policy_witness :
    queryLlama2 (fun _ => LResp.transport) 3 = (none, 3) ∧
    queryLlama2 (fun i => if i < 2 then LResp.transport else LResp.http 200 (some " ok ")) 5 =
      (some (pyStrip " ok "), 3) := by
  constructor
  · exact (query_llama2_retry_policy (fun _ => LResp.transport)).1 (by decide)
  · exact (query_llama2_retry_policy
      (fun i => if i < 2 then LResp.transport else LResp.http 200 (some " ok "))).2
      5 2 " ok " (by decide) (by decide) (by decide)

/-- C10: the persisted `story_id` is the first 8 characters of the
freshly generated UUID4 string (`str(uuid.uuid4())[:8]`), hence exactly 8
characters long for any UUID string of the canonical 36-character shape;
the schema enforces uniqueness of `story_id`
(`StringField(required=True, unique=True)`). -/
theorem story_id_from_uuid (uuid genre title idea : String) (scenes : List SceneR)
    (rawS : String) (prompts : List (Int × String)) (rawP folder : String)
    (h : 8 ≤ uuid.toList.length) :
    (saveStoryToMongo uuid genre title idea scenes rawS prompts rawP folder).story_id =
      (uuid.toList.take 8).asString ∧
    (saveStoryToMongo uuid genre title idea scenes rawS prompts rawP folder).story_id.length = 8 ∧
    storyIdField.unique = true ∧ storyIdField.required = true := by
  refine ⟨rfl, ?_, rfl, rfl⟩
  show ((uuid.toList.take 8).asString).length = 8
  have hl : ∀ l : List Char, (l.asString).length = l.length := fun _ => rfl
  rw [hl, List.length_take]
  omega

/-- witness for C10 at a concrete canonical UUID4 string. -/
theorem story_id_from_uuid_witness :
    (saveStoryToMongo "123e4567-e89b-42d3-a456-426614174000" "fantasy" "T" "i" [] "" [] "" "f").story_id =
      ("123e4567-e89b-42d3-a456-426614174000".toList.take 8).asString ∧
    (saveStoryToMongo "123e4567-e89b-42d3-a456-426614174000" "fantasy" "T" "i" [] "" [] "" "f").story_id.length = 8 ∧
    storyIdField.unique = true ∧ storyIdField.required = true :=
  story_id_from_uuid "123e4567-e89b-42d3-a456-426614174000" "fantasy" "T" "i" [] "" [] "" "f"
    (by decide)

/-- C8 (amended): the pipeline persists exactly the scenes the parser
produced, numbers included and order preserved; the persisted numbers are
pairwise distinct whenever the parsed numbers are, but no deduplication
is performed anywhere. -/
theorem save_story_scene_numbers (uuid genre title idea rawS rawP folder : String)
    (scenes : List SceneR) (prompts : List (Int × String)) :
    ((saveStoryToMongo uuid genre title idea scenes rawS prompts rawP folder).scenes.map
        (fun d => d.scene)) = scenes.map (fun s => s.scene) ∧
    ((scenes.map (fun s => s.scene)).Nodup →
      ((saveStoryToMongo uuid genre title idea scenes rawS prompts rawP folder).scenes.map
          (fun d => d.scene)).Nodup) := by
  have h1 : ((saveStoryToMongo uuid genre title idea scenes rawS prompts rawP folder).scenes.map
      (fun d => d.scene)) = scenes.map (fun s => s.scene) := by
    simp [saveStoryToMongo]
  exact ⟨h1, fun h => h1 ▸ h⟩

/-- witness for C8's amended statement at a concrete duplicate-free parse. -/
theorem save_story_scene_numbers_witness :
    ((saveStoryToMongo "u" "g" "T" "i" (parseScenes "Scene 1: a\nDescription: b") "" [] "" "f").scenes.map
        (fun d => d.scene)).Nodup :=
  (save_story_scene_numbers "u" "g" "T" "i" "" "" "f" (parseScenes "Scene 1: a\nDescription: b") []).2
    (by decide)

/-- counterexample to C8 as stated: raw scene text with two `Scene 1:`
blocks parses to two scenes both numbered 1, and the persisted record
keeps both, so its scene numbers are not pairwise distinct. -/
theorem save_story_duplicate_numbers :
    ((saveStoryToMongo "123e4567-e89b-42d3-a456-426614174000" "fantasy" "T" "idea"
        (parseScenes "Scene 1: a\nDescription: b\nScene 1: c\nDescription: d")
        "Scene 1: a\nDescription: b\nScene 1: c\nDescription: d" [] "" "story_outputs/T").scenes.map
        (fun d => d.scene)) = [1, 1] ∧
    ¬ ([(1 : Int), 1].Nodup) := by
  exact ⟨by decide, by decide⟩

theorem discoverNums_sorted (files : List String) (nums : List Int)
    (h : discoverNums files = some nums) : List.Sorted (· ≤ ·) nums := by
  simp only [discoverNums, Option.map_eq_some'] at h
  obtain ⟨ns, _, rfl⟩ := h
  exact List.sorted_insertionSort (· ≤ ·) ns

/-- C4: the video assembler's discovery step sorts the extracted scene
numbers ascending numerically; in particular the files
`scene_2.png`, `scene_10.png`, `scene_1.png` are assembled in the order
1, 2, 10 and not in lexicographic order 1, 10, 2. -/
theorem video_numeric_order :
    (∀ files nums, discoverNums files = some nums → List.Sorted (· ≤ ·) nums) ∧
    discoverNums ["scene_2.png", "scene_10.png", "scene_1.png"] = some [1, 2, 10] ∧
    ([1, 2, 10] : List Int) ≠ [1, 10, 2] :=
  ⟨discoverNums_sorted, by decide, by decide⟩

/-- witness for C4's universally quantified part at the concrete file list. -/
theorem video_numeric_order_witness : List.Sorted (· ≤ ·) ([1, 2, 10] : List Int) :=
  video_numeric_order.1 ["scene_2.png", "scene_10.png", "scene_1.png"] [1, 2, 10] (by decide)

/-- C5: for any project folder whose discovery step succeeds, a
discovered scene number is included in the assembled video exactly when
its `scene_{n}.mp3` exists; the included numbers stay in ascending
numeric order; and when no discovered scene has both artifacts the
assembler returns `None` instead of writing a video or raising. -/
theorem video_skips_missing_audio (files : List String) (nums : List Int)
    (h : discoverNums files = some nums) :
    (∀ n, n ∈ nums.filter (fun n => files.contains (mp3Name n)) ↔
      n ∈ nums ∧ files.contains (mp3Name n) = true) ∧
    List.Sorted (· ≤ ·) (nums.filter (fun n => files.contains (mp3Name n))) ∧
    (nums.filter (fun n => files.contains (mp3Name n)) = [] →
      createVideoForProject files = some none) ∧
    (nums.filter (fun n => files.contains (mp3Name n)) ≠ [] →
      createVideoForProject files = some (some (nums.filter (fun n => files.contains (mp3Name n))))) := by
  refine ⟨?_, ?_, ?_, ?_⟩
  · intro n; simp
  · exact List.Pairwise.filter _ (discoverNums_sorted files nums h)
  · intro he
    simp only [createVideoForProject, h]
    rw [he]
    rfl
  · intro hne
    have hf : (nums.filter (fun n => files.contains (mp3Name n))).isEmpty = false := by
      cases hc : nums.filter (fun n => files.contains (mp3Name n)) with
      | nil => exact absurd hc hne
      | cons a t => rfl
    simp only [createVideoForProject, h]
    rw [hf]
    rfl

/-- witness for C5: scene 2 lacks its narration file and is excluded
while scene 1 with both artifacts is kept. -/
theorem video_skips_missing_audio_witness :
    ((1 : Int) ∈ [(1 : Int), 2].filter
        (fun n => ["scene_1.png", "scene_2.png", "scene_1.mp3"].contains (mp3Name n)) ↔
      (1 : Int) ∈ [(1 : Int), 2] ∧
        ["scene_1.png", "scene_2.png", "scene_1.mp3"].contains (mp3Name 1) = true) ∧
    createVideoForProject ["scene_1.png", "scene_2.png", "scene_1.mp3"] = some (some [1]) := by
  have h := video_skips_missing_audio ["scene_1.png", "scene_2.png", "scene_1.mp3"] [1, 2] (by decide)
  refine ⟨h.1 1, ?_⟩
  have h4 := h.2.2.2 (by decide)
  rw [h4]
  decide

/-- C1 (amended): a run whose generated scene text parses to zero scene
blocks (over a fresh project folder) completes without raising, persists
a `Story` record with an empty scene list, and the internal video
assembly returns `None`; but the dictionary returned by `create_story`
reports the constructed `str(output_video)` path, not a null video
path, because the `None` returned by `create_video_for_project` is
discarded. -/
theorem create_story_empty_scenes (pipeOk : Option String → Bool) (ttsOk : String → Bool)
    (uuid genre idea validation title rawScenes rawPrompts : String)
    (h : parseScenes rawScenes = []) :
    ∃ out, createStory pipeOk ttsOk uuid genre idea validation title rawScenes rawPrompts [] =
        some out ∧
      out.record.scenes = [] ∧
      out.videoResult = none ∧
      out.result.video_file =
        some ("story_outputs/" ++ sanitizeFilename title ++ "/" ++ sanitizeFilename title ++ ".mp4") := by
  unfold createStory
  rw [h]
  exact ⟨_, rfl, rfl, rfl, rfl⟩

/-- witness for C1's amended statement at a concrete run with scene text
containing no valid block. -/
theorem create_story_empty_scenes_witness :
    ∃ out, createStory (fun _ => false) (fun _ => true) "123e4567-e89b-42d3-a456-426614174000"
        "fantasy" "idea" "val" "T" "no scenes here" "prompts" [] = some out ∧
      out.record.scenes = [] ∧
      out.videoResult = none ∧
      out.result.video_file =
        some ("story_outputs/" ++ sanitizeFilename "T" ++ "/" ++ sanitizeFilename "T" ++ ".mp4") :=
  create_story_empty_scenes (fun _ => false) (fun _ => true)
    "123e4567-e89b-42d3-a456-426614174000" "fantasy" "idea" "val" "T" "no scenes here" "prompts"
    (by decide)

/-- counterexample to C1 as stated: in a run whose scene text parses to
zero blocks the record is persisted with an empty scene list and the
assembler returns `None`, yet the returned dictionary's `video_file` is
the non-null path string `story_outputs/T/T.mp4`. -/
theorem create_story_video_path_not_null :
    (createStory (fun _ => false) (fun _ => true) "123e4567-e89b-42d3-a456-426614174000"
        "fantasy" "idea" "val" "T" "no scenes here" "prompts" []).map
        (fun o => (o.record.scenes, o.videoResult, o.result.video_file)) =
      some ([], none, some "story_outputs/T/T.mp4") ∧
    some "story_outputs/T/T.mp4" ≠ (none : Option String) := by
  exact ⟨by decide, by decide⟩

/-! Digit-safety of the scanner: every captured `(\d+)` group is a
non-empty digit string, so the `int()` conversion inside `parse_scenes`
can never raise. -/

theorem numSplit?_digits {l ds q : List Char} (h : numSplit? l = some (ds, q)) :
    ds ≠ [] ∧ ds.all isPyDigit = true := by
  unfold numSplit? at h
  cases hsp : stripPre? sceneLit l with
  | none => rw [hsp] at h; simp at h
  | some r1 =>
    rw [hsp] at h
    simp only at h
    by_cases hde : ((r1.dropWhile isPySpace).takeWhile isPyDigit).isEmpty
    · simp [hde] at h
    · simp only [hde, Bool.false_eq_true, if_false] at h
      split at h
      · rename_i q' heq
        injection h with h1
        injection h1 with h2 h3
        subst h2
        refine ⟨?_, List.all_takeWhile⟩
        intro hnil
        rw [hnil] at hde
        exact hde rfl
      · simp at h

theorem tryMatch_num {l : List Char} {g : RawM} {r : List Char}
    (h : tryMatch l = some (g, r)) : g.num ≠ [] ∧ g.num.all isPyDigit = true := by
  unfold tryMatch at h
  cases hns : numSplit? l with
  | none => rw [hns] at h; simp at h
  | some dq =>
    obtain ⟨ds, q⟩ := dq
    rw [hns] at h
    simp only at h
    split at h
    · injection h with h1
      injection h1 with h2 h3
      have : g.num = ds := by rw [← h2]
      rw [this]
      exact numSplit?_digits hns
    · split at h
      · injection h with h1
        injection h1 with h2 h3
        have : g.num = ds := by rw [← h2]
        rw [this]
        exact numSplit?_digits hns
      · simp at h

theorem findAllF_nums : ∀ fuel (l : List Char), ∀ m ∈ findAllF fuel l,
    m.num ≠ [] ∧ m.num.all isPyDigit = true := by
  intro fuel
  induction fuel with
  | zero => intro l m hm; simp [findAllF] at hm
  | succ n ih =>
    intro l m hm
    cases l with
    | nil => simp [findAllF] at hm
    | cons c rest =>
      cases htm : tryMatch (c :: rest) with
      | none =>
        rw [findAllF, htm] at hm
        exact ih rest m hm
      | some gr =>
        obtain ⟨g, rest'⟩ := gr
        rw [findAllF, htm] at hm
        rcases List.mem_cons.mp hm with rfl | hm'
        · exact tryMatch_num htm
        · exact ih rest' m hm'

/-- C9: `parse_scenes` applied to the empty string returns an empty
sequence; and on every input string the scanner is total and every match
it emits carries a non-empty all-digit number group, so the `int()`
conversion (the only fallible step of `parse_scenes`) cannot raise and
the function returns a possibly empty list for every input. -/
theorem parse_scenes_never_raises :
    parseScenes "" = [] ∧
    (∀ s : String, ∀ m ∈ findAllL s.toList, m.num ≠ [] ∧ m.num.all isPyDigit = true) := by
  refine ⟨by decide, ?_⟩
  intro s m hm
  exact findAllF_nums (s.toList.length + 1) s.toList m hm

/-- witness for C9's quantified part at a concrete input. -/
theorem parse_scenes_never_raises_witness :
    (RawM.mk ['1'] ['a'] ['b']).num ≠ [] ∧
    (RawM.mk ['1'] ['a'] ['b']).num.all isPyDigit = true :=
  parse_scenes_never_raises.2 "Scene 1: a\nDescription: b" (RawM.mk ['1'] ['a'] ['b'])
    (by decide)

/-! Lemmas about the media-synthesis loop. -/

theorem mem_addFile_self (fs : List String) (f : String) : f ∈ addFile fs f := by
  unfold addFile
  split
  · assumption
  · simp

theorem mem_addFile_of_mem {fs : List String} {g : String} (f : String) (h : g ∈ fs) :
    g ∈ addFile fs f := by
  unfold addFile
  split
  · exact h
  · exact List.mem_append_left _ h

theorem mem_addFile_iff {fs : List String} {g f : String} :
    g ∈ addFile fs f ↔ g ∈ fs ∨ g = f := by
  unfold addFile
  split
  · rename_i hin
    constructor
    · exact Or.inl
    · rintro (h | rfl)
      · exact h
      · exact hin
  · simp

theorem imgName_ne_mp3Name (n : Int) : imgName n ≠ mp3Name n := by
  intro h
  have h2 : (imgName n).data = (mp3Name n).data := congrArg String.data h
  have e1 : (imgName n).data = ("scene_".data ++ (toString n).data) ++ ".png".data := rfl
  have e2 : (mp3Name n).data = ("scene_".data ++ (toString n).data) ++ ".mp3".data := rfl
  rw [e1, e2] at h2
  have h3 := List.append_cancel_left h2
  exact absurd h3 (by decide)

theorem processScene_imageCalls (pk : Option String → Bool) (tk : String → Bool)
    (prompts : List (Int × String)) (st : MediaState) (sc : SceneR) :
    (processScene pk tk prompts st sc).imageCalls =
      st.imageCalls ++ [(sc.scene, dget prompts sc.scene)] := by
  unfold processScene
  dsimp only
  repeat' split
  all_goals rfl

theorem processScene_ttsCalls_present (pk : Option String → Bool) (tk : String → Bool)
    (prompts : List (Int × String)) (st : MediaState) (sc : SceneR)
    (h : mp3Name sc.scene ∈ st.files) :
    (processScene pk tk prompts st sc).ttsCalls = st.ttsCalls := by
  unfold processScene
  dsimp only
  by_cases hpk : pk (dget prompts sc.scene) = true
  · rw [if_pos hpk]
    by_cases hd : pyStrip sc.description = ""
    · rw [if_pos hd]
    · rw [if_neg hd, if_pos (mem_addFile_of_mem _ h)]
  · rw [if_neg hpk]
    by_cases hd : pyStrip sc.description = ""
    · rw [if_pos hd]
    · rw [if_neg hd, if_pos h]

theorem processScene_ttsCalls_blank (pk : Option String → Bool) (tk : String → Bool)
    (prompts : List (Int × String)) (st : MediaState) (sc : SceneR)
    (h : pyStrip sc.description = "") :
    (processScene pk tk prompts st sc).ttsCalls = st.ttsCalls := by
  unfold processScene
  dsimp only
  by_cases hpk : pk (dget prompts sc.scene) = true
  · rw [if_pos hpk, if_pos h]
  · rw [if_neg hpk, if_pos h]

theorem processScene_files_mono (pk : Option String → Bool) (tk : String → Bool)
    (prompts : List (Int × String)) (st : MediaState) (sc : SceneR) {g : String}
    (h : g ∈ st.files) : g ∈ (processScene pk tk prompts st sc).files := by
  unfold processScene
  dsimp only
  by_cases hpk : pk (dget prompts sc.scene) = true
  · rw [if_pos hpk]
    have h1 : g ∈ addFile st.files (imgName sc.scene) := mem_addFile_of_mem _ h
    by_cases hd : pyStrip sc.description = ""
    · rw [if_pos hd]
      exact h1
    · rw [if_neg hd]
      by_cases hm : mp3Name sc.scene ∈ addFile st.files (imgName sc.scene)
      · rw [if_pos hm]
        exact h1
      · rw [if_neg hm]
        by_cases htk : tk (pyStrip sc.description) = true
        · rw [if_pos htk]
          exact mem_addFile_of_mem _ h1
        · rw [if_neg htk]
          exact h1
  · rw [if_neg hpk]
    by_cases hd : pyStrip sc.description = ""
    · rw [if_pos hd]
      exact h
    · rw [if_neg hd]
      by_cases hm : mp3Name sc.scene ∈ st.files
      · rw [if_pos hm]
        exact h
      · rw [if_neg hm]
        by_cases htk : tk (pyStrip sc.description) = true
        · rw [if_pos htk]
          exact mem_addFile_of_mem _ h
        · rw [if_neg htk]
          exact h

theorem processScene_adds_mp3 (pk : Option String → Bool) (tk : String → Bool)
    (prompts : List (Int × String)) (st : MediaState) (sc : SceneR)
    (h1 : pyStrip sc.description ≠ "") (h2 : tk (pyStrip sc.description) = true) :
    mp3Name sc.scene ∈ (processScene pk tk prompts st sc).files := by
  unfold processScene
  dsimp only
  by_cases hpk : pk (dget prompts sc.scene) = true
  · rw [if_pos hpk, if_neg h1]
    by_cases hm : mp3Name sc.scene ∈ addFile st.files (imgName sc.scene)
    · rw [if_pos hm]
      exact hm
    · rw [if_neg hm, if_pos h2]
      exact mem_addFile_self _ _
  · rw [if_neg hpk, if_neg h1]
    by_cases hm : mp3Name sc.scene ∈ st.files
    · rw [if_pos hm]
      exact hm
    · rw [if_neg hm, if_pos h2]
      exact mem_addFile_self _ _

theorem run_files_mono (pk : Option String → Bool) (tk : String → Bool)
    (prompts : List (Int × String)) :
    ∀ (scenes : List SceneR) (st : MediaState) (g : String), g ∈ st.files →
      g ∈ (scenes.foldl (processScene pk tk prompts) st).files := by
  intro scenes
  induction scenes with
  | nil => intro st g h; exact h
  | cons sc rest ih =>
    intro st g h
    exact ih _ g (processScene_files_mono pk tk prompts st sc h)

theorem run_adds_mp3 (pk : Option String → Bool) (tk : String → Bool)
    (prompts : List (Int × String)) (htts : ∀ d, tk d = true) :
    ∀ (scenes : List SceneR) (st : MediaState) (sc : SceneR), sc ∈ scenes →
      pyStrip sc.description ≠ "" →
      mp3Name sc.scene ∈ (scenes.foldl (processScene pk tk prompts) st).files := by
  intro scenes
  induction scenes with
  | nil => intro st sc h; simp at h
  | cons sc0 rest ih =>
    intro st sc hmem hne
    rcases List.mem_cons.mp hmem with rfl | hmem'
    · exact run_files_mono pk tk prompts rest _ _
        (processScene_adds_mp3 pk tk prompts st sc hne (htts _))
    · exact ih _ sc hmem' hne

theorem run_no_tts (pk : Option String → Bool) (tk : String → Bool)
    (prompts : List (Int × String)) :
    ∀ (scenes : List SceneR) (st : MediaState),
      (∀ sc ∈ scenes, pyStrip sc.description = "" ∨ mp3Name sc.scene ∈ st.files) →
      (scenes.foldl (processScene pk tk prompts) st).ttsCalls = st.ttsCalls := by
  intro scenes
  induction scenes with
  | nil => intro st _; rfl
  | cons sc0 rest ih =>
    intro st h
    have h0 := h sc0 (List.mem_cons_self sc0 rest)
    have hts : (processScene pk tk prompts st sc0).ttsCalls = st.ttsCalls := by
      rcases h0 with hb | hp
      · exact processScene_ttsCalls_blank pk tk prompts st sc0 hb
      · exact processScene_ttsCalls_present pk tk prompts st sc0 hp
    have hrest : ∀ sc ∈ rest, pyStrip sc.description = "" ∨
        mp3Name sc.scene ∈ (processScene pk tk prompts st sc0).files := by
      intro sc hsc
      rcases h sc (List.mem_cons_of_mem _ hsc) with hb | hp
      · exact Or.inl hb
      · exact Or.inr (processScene_files_mono pk tk prompts st sc0 hp)
    calc (List.foldl (processScene pk tk prompts) st (sc0 :: rest)).ttsCalls
        = (List.foldl (processScene pk tk prompts) (processScene pk tk prompts st sc0) rest).ttsCalls := rfl
      _ = (processScene pk tk prompts st sc0).ttsCalls := ih _ hrest
      _ = st.ttsCalls := hts

theorem run_imageCalls (pk : Option String → Bool) (tk : String → Bool)
    (prompts : List (Int × String)) :
    ∀ (scenes : List SceneR) (st : MediaState),
      (scenes.foldl (processScene pk tk prompts) st).imageCalls =
        st.imageCalls ++ scenes.map (fun sc => (sc.scene, dget prompts sc.scene)) := by
  intro scenes
  induction scenes with
  | nil => intro st; simp
  | cons sc0 rest ih =>
    intro st
    calc (List.foldl (processScene pk tk prompts) st (sc0 :: rest)).imageCalls
        = (processScene pk tk prompts st sc0).imageCalls ++
            rest.map (fun sc => (sc.scene, dget prompts sc.scene)) := ih _
      _ = _ := by rw [processScene_imageCalls]; simp

/-- C6 (amended): the media synthesizer visits every scene of the scene
list and issues exactly one image-backend request per scene, passing the
scene's prompt when the mapping has an entry and a null prompt otherwise
(the request is not skipped when the entry is missing); a scene with no
prompt entry is still visited for narration, which proceeds exactly as
for any other scene, without crashing the batch. -/
theorem media_requests_every_scene (pk : Option String → Bool) (tk : String → Bool)
    (prompts : List (Int × String)) (scenes : List SceneR) (files0 : List String) :
    (generateImagesAndAudio pk tk prompts scenes files0).imageCalls =
      scenes.map (fun sc => (sc.scene, dget prompts sc.scene)) ∧
    (∀ (st : MediaState) (sc : SceneR), dget prompts sc.scene = none →
      pyStrip sc.description ≠ "" → mp3Name sc.scene ∉ st.files →
      tk (pyStrip sc.description) = true →
      (processScene pk tk prompts st sc).ttsCalls =
        st.ttsCalls ++ [(sc.scene, pyStrip sc.description)] ∧
      mp3Name sc.scene ∈ (processScene pk tk prompts st sc).files) := by
  constructor
  · have h := run_imageCalls pk tk prompts scenes ⟨files0, [], []⟩
    simpa [generateImagesAndAudio] using h
  · intro st sc hp hd hm htk
    unfold processScene
    dsimp only
    rw [hp]
    by_cases hpk : pk none = true
    · rw [if_pos hpk]
      have hm1 : mp3Name sc.scene ∉ addFile st.files (imgName sc.scene) := by
        intro hmem
        rcases mem_addFile_iff.mp hmem with h1 | h1
        · exact hm h1
        · exact imgName_ne_mp3Name sc.scene h1.symm
      rw [if_neg hd, if_neg hm1, if_pos htk]
      exact ⟨rfl, mem_addFile_self _ _⟩
    · rw [if_neg hpk]
      rw [if_neg hd, if_neg hm, if_pos htk]
      exact ⟨rfl, mem_addFile_self _ _⟩

/-- witness for C6's amended statement: a single scene with no prompt
entry gets a null-prompt image request and its narration still runs. -/
theorem media_requests_every_scene_witness :
    (generateImagesAndAudio (fun _ => false) (fun _ => true) [] [⟨1, "s", "d"⟩] []).imageCalls =
      ([(⟨1, "s", "d"⟩ : SceneR)]).map (fun sc => (sc.scene, dget [] sc.scene)) ∧
    (processScene (fun _ => false) (fun _ => true) [] ⟨[], [], []⟩ ⟨1, "s", "d"⟩).ttsCalls =
      ([] : List (Int × String)) ++ [((1 : Int), pyStrip "d")] ∧
    mp3Name 1 ∈ (processScene (fun _ => false) (fun _ => true) [] ⟨[], [], []⟩ ⟨1, "s", "d"⟩).files := by
  have h := media_requests_every_scene (fun _ => false) (fun _ => true) [] [⟨1, "s", "d"⟩] []
  have h2 := h.2 ⟨[], [], []⟩ ⟨1, "s", "d"⟩ (by decide) (by decide) (by decide) (by decide)
  exact ⟨h.1, h2.1, h2.2⟩

/-- counterexample to C6 as stated: with an empty image-prompt mapping,
processing the single scene 1 still issues an image-backend request
(with a null prompt), although scene 1 has no entry in the mapping — the
claimed only-if direction fails. -/
theorem media_image_call_without_prompt :
    (generateImagesAndAudio (fun _ => false) (fun _ => true) [] [⟨1, "s", "d"⟩] []).imageCalls =
      [((1 : Int), (none : Option String))] ∧
    dget [] (1 : Int) = none ∧
    [((1 : Int), (none : Option String))] ≠ [] := by
  exact ⟨by decide, by decide, by decide⟩

/-- C7: narration is written only when `scene_{n}.mp3` does not already
exist: processing a scene whose narration file is present performs no
narration call, a scene with a blank description gets no narration at
all, a scene with a non-blank description and no existing file gets its
narration synthesized and written, and a second synthesis run over the
same project folder (with a narration backend that succeeds) performs no
narration call whatsoever. -/
theorem media_narration_idempotent (pk : Option String → Bool) (tk : String → Bool)
    (prompts : List (Int × String)) (scenes : List SceneR) :
    (∀ (st : MediaState) (sc : SceneR), mp3Name sc.scene ∈ st.files →
      (processScene pk tk prompts st sc).ttsCalls = st.ttsCalls) ∧
    (∀ (st : MediaState) (sc : SceneR), pyStrip sc.description = "" →
      (processScene pk tk prompts st sc).ttsCalls = st.ttsCalls) ∧
    (∀ (st : MediaState) (sc : SceneR), pyStrip sc.description ≠ "" →
      mp3Name sc.scene ∉ st.files → tk (pyStrip sc.description) = true →
      mp3Name sc.scene ∈ (processScene pk tk prompts st sc).files) ∧
    (∀ files0, (∀ d, tk d = true) →
      (generateImagesAndAudio pk tk prompts scenes
        (generateImagesAndAudio pk tk prompts scenes files0).files).ttsCalls = []) := by
  refine ⟨processScene_ttsCalls_present pk tk prompts, processScene_ttsCalls_blank pk tk prompts,
    ?_, ?_⟩
  · intro st sc h1 _ h2
    exact processScene_adds_mp3 pk tk prompts st sc h1 h2
  · intro files0 htts
    have hrun : ∀ sc ∈ scenes, pyStrip sc.description = "" ∨
        mp3Name sc.scene ∈
          (MediaState.mk (generateImagesAndAudio pk tk prompts scenes files0).files [] []).files := by
      intro sc hsc
      by_cases hb : pyStrip sc.description = ""
      · exact Or.inl hb
      · refine Or.inr ?_
        exact run_adds_mp3 pk tk prompts htts scenes ⟨files0, [], []⟩ sc hsc hb
    exact run_no_tts pk tk prompts scenes
      ⟨(generateImagesAndAudio pk tk prompts scenes files0).files, [], []⟩ hrun

/-- witness for C7 at concrete inputs: rerunning synthesis over the
folder produced by a successful first run performs no narration call,
an existing file suppresses the call, and a blank description never
narrates. -/
theorem media_narration_idempotent_witness :
    (processScene (fun _ => true) (fun _ => true) [] ⟨["scene_1.mp3"], [], []⟩ ⟨1, "s", "d"⟩).ttsCalls =
      (MediaState.mk ["scene_1.mp3"] [] []).ttsCalls ∧
    (processScene (fun _ => true) (fun _ => true) [] ⟨[], [], []⟩ ⟨2, "s", " "⟩).ttsCalls =
      (MediaState.mk [] [] []).ttsCalls ∧
    (generateImagesAndAudio (fun _ => true) (fun _ => true) [] [⟨1, "s", "d"⟩]
      (generateImagesAndAudio (fun _ => true) (fun _ => true) [] [⟨1, "s", "d"⟩] []).files).ttsCalls = [] := by
  have h := media_narration_idempotent (fun _ => true) (fun _ => true) [] [⟨1, "s", "d"⟩]
  refine ⟨h.1 ⟨["scene_1.mp3"], [], []⟩ ⟨1, "s", "d"⟩ (by decide),
    h.2.1 ⟨[], [], []⟩ ⟨2, "s", " "⟩ (by decide), h.2.2.2 [] (fun _ => rfl)⟩

/-! Well-formed scene blocks for claim C2.  A block is the text
`Scene <N>: <summary>` followed on the next line by
`Description: <description>`; the description of a non-final block runs
until the next `Scene <N>:` marker (so any inter-block noise is, by the
claim's own convention, part of the preceding description), and noise may
precede the first block. -/

/-- one well-formed block, carrying the literal digit group `<N>` and the
raw summary and description texts. -/
structure Block where
  numStr : String
  summary : String
  description : String
deriving DecidableEq, Repr

/-- the text of one block:
`Scene <numStr>: <summary>\nDescription: <description>`. -/
def renderBlockL (b : Block) : List Char :=
  sceneLit ++ ' ' :: (b.numStr.toList ++ ':' :: ' ' ::
    (b.summary.toList ++ descLit ++ ' ' :: b.description.toList))

/-- the text of a block list, blocks separated by single newlines. -/
def renderAllL : List Block → List Char
  | [] => []
  | [b] => renderBlockL b
  | b :: b' :: bs => renderBlockL b ++ '\n' :: renderAllL (b' :: bs)

/-- what follows a block's description: nothing after the last block, a
newline and the remaining blocks otherwise. -/
def nextBoundary : List Block → List Char
  | [] => []
  | b :: bs => '\n' :: renderAllL (b :: bs)

theorem renderAll_cons (b : Block) (bs : List Block) :
    renderAllL (b :: bs) = renderBlockL b ++ nextBoundary bs := by
  cases bs with
  | nil => simp [renderAllL, nextBoundary]
  | cons b' bs' => rfl

/-- no position strictly inside `d` (viewed as a prefix of `d ++ k`)
matches `\nScene\s*\d+:`. -/
def noMarkerBefore : List Char → List Char → Bool
  | [], _ => true
  | c :: rest, k => !(sceneMarkerAt ((c :: rest) ++ k)) && noMarkerBefore rest k

/-- no position strictly inside `a` (viewed as a prefix of `a ++ b`)
matches `Scene\s*\d+:`. -/
def noSceneStartBefore : List Char → List Char → Bool
  | [], _ => true
  | c :: rest, b => !(sceneStartAt ((c :: rest) ++ b)) && noSceneStartBefore rest b

/-- structural well-formedness of one block: a non-empty all-digit
number group, a single-line summary that is not entirely whitespace, and
a description that is not entirely whitespace. -/
def wfBlock (b : Block) : Bool :=
  !(b.numStr.toList.isEmpty) && b.numStr.toList.all isPyDigit &&
  b.summary.toList.all (fun c => !(c == '\n')) &&
  !((pyStripL b.summary.toList).isEmpty) &&
  !((pyStripL b.description.toList).isEmpty)

/-- well-formedness of a block chain: every block is well formed and no
description contains a `\nScene\s*\d+:` marker before its block's
boundary. -/
def wfChain : List Block → Bool
  | [] => true
  | b :: bs =>
    wfBlock b && noMarkerBefore b.description.toList (nextBoundary bs) && wfChain bs

/-- scene record that claim C2 predicts for a well-formed block: the
parsed integer and the trimmed summary and description. -/
def expectedScene (b : Block) : SceneR :=
  ⟨(natOfDigits b.numStr.toList : Int), pyStrip b.summary, pyStrip b.description⟩

/-- raw match groups the scanner produces for a well-formed block. -/
def rawOf (b : Block) : RawM :=
  ⟨b.numStr.toList, (b.summary.toList).dropWhile isPySpace,
    (b.description.toList).dropWhile isPySpace⟩

example : renderAllL [⟨"1", "s", "d"⟩, ⟨"2", "t", "e"⟩] =
    "Scene 1: s\nDescription: d\nScene 2: t\nDescription: e".toList := by decide
example : wfChain [⟨"1", "s", "d"⟩, ⟨"2", "t", "e"⟩] = true := by decide

/-! Helper lemmas about lists and the scanner. -/

theorem stripPre?_append (p r : List Char) : stripPre? p (p ++ r) = some r := by
  induction p with
  | nil => rfl
  | cons a as ih => simp [stripPre?, ih]

theorem stripPre?_length {p l r : List Char} (h : stripPre? p l = some r) :
    r.length + p.length = l.length := by
  induction p generalizing l with
  | nil =>
    cases l with
    | nil => cases h; rfl
    | cons c t => cases h; rfl
  | cons a as ih =>
    cases l with
    | nil => simp [stripPre?] at h
    | cons c t =>
      unfold stripPre? at h
      split at h
      · have := ih h
        simp only [List.length_cons]
        omega
      · exact absurd h (by simp)

theorem dropWhile_length_le (p : Char → Bool) (l : List Char) :
    (l.dropWhile p).length ≤ l.length :=
  (List.dropWhile_sublist p).length_le

theorem takeUntilMarker_snd_le (l : List Char) :
    (takeUntilMarker l).2.length ≤ l.length := by
  induction l with
  | nil => simp [takeUntilMarker]
  | cons c rest ih =>
    unfold takeUntilMarker
    split
    · simp
    · dsimp only
      calc (takeUntilMarker rest).2.length ≤ rest.length := ih
        _ ≤ (c :: rest).length := by simp

theorem findSplit_post_le {n l pre post : List Char} (h : findSplit n l = some (pre, post)) :
    post.length ≤ l.length := by
  induction l generalizing pre with
  | nil =>
    unfold findSplit at h
    split at h
    · cases h; simp
    · exact absurd h (by simp)
  | cons c rest ih =>
    unfold findSplit at h
    split at h
    · cases h
      simp only [List.length_drop]
      omega
    · split at h
      · rename_i pre' post' heq
        cases h
        calc post.length ≤ rest.length := ih heq
          _ ≤ (c :: rest).length := by simp
      · exact absurd h (by simp)

theorem isPrefixOf_append (p r : List Char) : p.isPrefixOf (p ++ r) = true := by
  induction p with
  | nil => cases r <;> rfl
  | cons a as ih =>
    show (a == a && as.isPrefixOf (as ++ r)) = true
    rw [ih]
    simp

/-- running `findSplit` for `\nDescription:` over text whose prefix contains no
newline finds exactly the boundary occurrence. -/
theorem findSplit_exact {a : List Char} (b : List Char)
    (ha : a.all (fun c => !(c == '\n')) = true) :
    findSplit descLit (a ++ (descLit ++ b)) = some (a, b) := by
  induction a with
  | nil =>
    show findSplit descLit (descLit ++ b) = some ([], b)
    have h1 : descLit.isPrefixOf (descLit ++ b) = true := isPrefixOf_append descLit b
    cases hd : descLit ++ b with
    | nil => exact absurd (congrArg List.length hd) (by simp [descLit, descTail])
    | cons c rest =>
      unfold findSplit
      rw [← hd, if_pos h1, hd]
      have : ((c :: rest).drop descLit.length) = b := by
        rw [← hd]
        exact List.drop_left descLit b
      rw [this]
  | cons x a' ih =>
    simp only [List.all_cons, Bool.and_eq_true] at ha
    have hxne : (x == '\n') = false := by
      cases hbeq : (x == '\n')
      · rfl
      · rw [hbeq] at ha; simp at ha
    have hx : descLit.isPrefixOf (x :: (a' ++ (descLit ++ b))) = false := by
      show ('\n' == x && descTail.isPrefixOf (a' ++ (descLit ++ b))) = false
      have h2 : ('\n' == x) = false := by
        cases hbeq : ('\n' == x)
        · rfl
        · rw [show x = '\n' from (beq_iff_eq.mp hbeq).symm] at hxne
          simp at hxne
      rw [h2]
      rfl
    show findSplit descLit (x :: (a' ++ (descLit ++ b))) = some (x :: a', b)
    unfold findSplit
    rw [hx]
    simp only [Bool.false_eq_true, if_false]
    rw [ih ha.2]

theorem sceneMarkerAt_nil : sceneMarkerAt [] = false := rfl

theorem takeUntilMarker_split {d k : List Char} (hd : noMarkerBefore d k = true)
    (hk : k = [] ∨ sceneMarkerAt k = true) :
    takeUntilMarker (d ++ k) = (d, k) := by
  induction d with
  | nil =>
    rcases hk with rfl | hm
    · rfl
    · cases k with
      | nil => rfl
      | cons c rest =>
        show takeUntilMarker (c :: rest) = ([], c :: rest)
        unfold takeUntilMarker
        rw [if_pos hm]
  | cons x d' ih =>
    unfold noMarkerBefore at hd
    simp only [Bool.and_eq_true, Bool.not_eq_true'] at hd
    show takeUntilMarker (x :: (d' ++ k)) = (x :: d', k)
    unfold takeUntilMarker
    rw [show x :: (d' ++ k) = (x :: d') ++ k from rfl, if_neg (by rw [hd.1]; simp)]
    dsimp only
    rw [ih hd.2]

theorem noMarkerBefore_dropWhile (p : Char → Bool) {d k : List Char}
    (h : noMarkerBefore d k = true) : noMarkerBefore (d.dropWhile p) k = true := by
  induction d with
  | nil => exact h
  | cons x d' ih =>
    unfold noMarkerBefore at h
    simp only [Bool.and_eq_true] at h
    by_cases hp : p x
    · rw [List.dropWhile_cons_of_pos hp]
      exact ih h.2
    · rw [List.dropWhile_cons_of_neg hp]
      unfold noMarkerBefore
      simp only [Bool.and_eq_true]
      exact h

theorem numSplit?_q_lt {l ds q : List Char} (h : numSplit? l = some (ds, q)) :
    q.length < l.length := by
  unfold numSplit? at h
  cases hsp : stripPre? sceneLit l with
  | none => rw [hsp] at h; simp at h
  | some r1 =>
    rw [hsp] at h
    simp only at h
    have hlen := stripPre?_length hsp
    have hdw : ((r1.dropWhile isPySpace)).length ≤ r1.length := dropWhile_length_le _ _
    by_cases hde : ((r1.dropWhile isPySpace).takeWhile isPyDigit).isEmpty
    · simp [hde] at h
    · simp only [hde, Bool.false_eq_true, if_false] at h
      split at h
      · rename_i q' heq
        injection h with h1
        injection h1 with h2 h3
        rw [h3] at heq
        have h4 : ((r1.dropWhile isPySpace).drop
            ((r1.dropWhile isPySpace).takeWhile isPyDigit).length).length = q.length + 1 := by
          rw [heq]; rfl
        rw [List.length_drop] at h4
        simp only [sceneLit, List.length_cons] at hlen
        omega
      · simp at h

theorem tryMatch_rest_lt {l : List Char} {g : RawM} {r : List Char}
    (h : tryMatch l = some (g, r)) : r.length < l.length := by
  unfold tryMatch at h
  cases hns : numSplit? l with
  | none => rw [hns] at h; simp at h
  | some dq =>
    obtain ⟨ds, q⟩ := dq
    rw [hns] at h
    simp only at h
    have hq : q.length < l.length := numSplit?_q_lt hns
    have hqd : ((q.drop (q.takeWhile isPySpace).length)).length ≤ q.length := by
      rw [List.length_drop]; omega
    split at h
    · rename_i pre post heq
      injection h with h1
      injection h1 with h2 h3
      have h4 : r.length ≤ (post.drop (post.takeWhile isPySpace).length).length := by
        rw [← h3]; exact takeUntilMarker_snd_le _
      have h5 : post.length ≤ (q.drop (q.takeWhile isPySpace).length).length :=
        findSplit_post_le heq
      have h6 : (post.drop (post.takeWhile isPySpace).length).length ≤ post.length := by
        rw [List.length_drop]; omega
      omega
    · split at h
      · injection h with h1
        injection h1 with h2 h3
        have h4 : r.length ≤
            (((q.drop (q.takeWhile isPySpace).length).drop descTail.length).drop
              (((q.drop (q.takeWhile isPySpace).length).drop descTail.length).takeWhile
                isPySpace).length).length := by
          rw [← h3]; exact takeUntilMarker_snd_le _
        simp only [List.length_drop] at h4 hqd ⊢
        omega
      · simp at h

theorem findAllF_succ_cons (fuel : Nat) (c : Char) (rest : List Char) :
    findAllF (fuel + 1) (c :: rest) =
      match tryMatch (c :: rest) with
      | some (g, rest') => g :: findAllF fuel rest'
      | none => findAllF fuel rest := rfl

theorem findAllF_ext : ∀ (n m : Nat) (l : List Char), l.length < n → l.length < m →
    findAllF n l = findAllF m l := by
  intro n
  induction n with
  | zero => intro m l h _; omega
  | succ n' ih =>
    intro m l hn hm
    cases m with
    | zero => omega
    | succ m' =>
      cases l with
      | nil => rfl
      | cons c rest =>
        cases htm : tryMatch (c :: rest) with
        | none =>
          rw [findAllF_succ_cons, findAllF_succ_cons, htm]
          dsimp only
          exact ih m' rest (by simp at hn; omega) (by simp at hm; omega)
        | some gr =>
          obtain ⟨g, rest'⟩ := gr
          have hlt := tryMatch_rest_lt htm
          simp only [List.length_cons] at hn hm hlt
          rw [findAllF_succ_cons, findAllF_succ_cons, htm]
          dsimp only
          rw [ih m' rest' (by omega) (by omega)]

theorem findAll_cons_none {c : Char} {rest : List Char} (h : tryMatch (c :: rest) = none) :
    findAllL (c :: rest) = findAllL rest := by
  unfold findAllL
  rw [show (c :: rest).length + 1 = rest.length + 1 + 1 from by simp]
  rw [findAllF_succ_cons, h]

theorem findAll_eq_cons {l : List Char} {g : RawM} {r : List Char}
    (h : tryMatch l = some (g, r)) : findAllL l = g :: findAllL r := by
  cases l with
  | nil =>
    rw [show tryMatch ([] : List Char) = none from rfl] at h
    simp at h
  | cons c rest =>
    have hlt := tryMatch_rest_lt h
    simp only [List.length_cons] at hlt
    unfold findAllL
    rw [show (c :: rest).length + 1 = rest.length + 1 + 1 from by simp]
    rw [findAllF_succ_cons, h]
    dsimp only
    rw [findAllF_ext (rest.length + 1) (r.length + 1) r (by omega) (by omega)]

theorem tryMatch_none_of_no_start {l : List Char} (h : sceneStartAt l = false) :
    tryMatch l = none := by
  unfold tryMatch
  cases hns : numSplit? l with
  | none => rfl
  | some v =>
    unfold sceneStartAt at h
    rw [hns] at h
    simp at h

theorem findAll_noise : ∀ (a b : List Char), noSceneStartBefore a b = true →
    findAllL (a ++ b) = findAllL b := by
  intro a
  induction a with
  | nil => intro b _; rfl
  | cons c a' ih =>
    intro b h
    unfold noSceneStartBefore at h
    simp only [Bool.and_eq_true, Bool.not_eq_true'] at h
    have htm : tryMatch (c :: (a' ++ b)) = none :=
      tryMatch_none_of_no_start (show sceneStartAt ((c :: a') ++ b) = false from h.1)
    rw [show (c :: a') ++ b = c :: (a' ++ b) from rfl]
    rw [findAll_cons_none htm]
    exact ih b h.2

theorem digit_not_space {c : Char} (h : isPyDigit c = true) : isPySpace c = false := by
  cases hsp : isPySpace c
  · rfl
  · exfalso
    unfold isPySpace at hsp
    simp only [Bool.or_eq_true, beq_iff_eq] at hsp
    rcases hsp with ((((h1 | h1) | h1) | h1) | h1) | h1 <;> (subst h1; exact absurd h (by decide))

theorem nonblank_dropWhile {l : List Char} (h : pyStripL l ≠ []) :
    l.dropWhile isPySpace ≠ [] := by
  intro he
  apply h
  unfold pyStripL
  rw [he]
  rfl

theorem takeWhile_append_stop {p : Char → Bool} {a : List Char} (r : List Char)
    (h : a.dropWhile p ≠ []) :
    (a ++ r).takeWhile p = a.takeWhile p ∧ (a ++ r).dropWhile p = a.dropWhile p ++ r := by
  induction a with
  | nil => exact absurd rfl h
  | cons x a' ih =>
    by_cases hp : p x
    · rw [List.dropWhile_cons_of_pos hp] at h
      obtain ⟨h1, h2⟩ := ih h
      constructor
      · rw [show (x :: a') ++ r = x :: (a' ++ r) from rfl, List.takeWhile_cons_of_pos hp,
          List.takeWhile_cons_of_pos hp, h1]
      · rw [show (x :: a') ++ r = x :: (a' ++ r) from rfl, List.dropWhile_cons_of_pos hp,
          List.dropWhile_cons_of_pos hp, h2]
    · constructor
      · rw [show (x :: a') ++ r = x :: (a' ++ r) from rfl, List.takeWhile_cons_of_neg hp,
          List.takeWhile_cons_of_neg hp]
      · rw [show (x :: a') ++ r = x :: (a' ++ r) from rfl, List.dropWhile_cons_of_neg hp,
          List.dropWhile_cons_of_neg hp]
        rfl

theorem takeWhile_append_all {p : Char → Bool} {a : List Char} {c : Char} (r : List Char)
    (ha : a.all p = true) (hc : p c = false) :
    (a ++ c :: r).takeWhile p = a := by
  induction a with
  | nil =>
    show (c :: r).takeWhile p = []
    rw [List.takeWhile_cons_of_neg (by rw [hc]; simp)]
  | cons x a' ih =>
    simp only [List.all_cons, Bool.and_eq_true] at ha
    rw [show (x :: a') ++ c :: r = x :: (a' ++ c :: r) from rfl,
      List.takeWhile_cons_of_pos ha.1, ih ha.2]

theorem drop_takeWhile (p : Char → Bool) (l : List Char) :
    l.drop (l.takeWhile p).length = l.dropWhile p := by
  induction l with
  | nil => rfl
  | cons x t ih =>
    by_cases hp : p x
    · rw [List.takeWhile_cons_of_pos hp, List.dropWhile_cons_of_pos hp, List.length_cons,
        List.drop_succ_cons, ih]
    · rw [List.takeWhile_cons_of_neg hp, List.dropWhile_cons_of_neg hp]
      rfl

theorem all_dropWhile {p q : Char → Bool} {l : List Char} (h : l.all q = true) :
    (l.dropWhile p).all q = true := by
  induction l with
  | nil => rfl
  | cons x t ih =>
    simp only [List.all_cons, Bool.and_eq_true] at h
    by_cases hp : p x
    · rw [List.dropWhile_cons_of_pos hp]
      exact ih h.2
    · rw [List.dropWhile_cons_of_neg hp]
      simp only [List.all_cons, Bool.and_eq_true]
      exact ⟨h.1, h.2⟩

theorem dropWhile_idem (p : Char → Bool) (l : List Char) :
    (l.dropWhile p).dropWhile p = l.dropWhile p := by
  induction l with
  | nil => rfl
  | cons x t ih =>
    by_cases hp : p x
    · rw [List.dropWhile_cons_of_pos hp, ih]
    · rw [List.dropWhile_cons_of_neg hp, List.dropWhile_cons_of_neg hp]

theorem pyStripL_dropWhile (l : List Char) :
    pyStripL (l.dropWhile isPySpace) = pyStripL l := by
  unfold pyStripL
  rw [dropWhile_idem]

theorem numSplit_generic (nl rest : List Char) (hnum : nl ≠ [])
    (hdig : nl.all isPyDigit = true) :
    numSplit? (sceneLit ++ ' ' :: (nl ++ ':' :: rest)) = some (nl, rest) := by
  unfold numSplit?
  rw [stripPre?_append]
  simp only
  rw [List.dropWhile_cons_of_pos (by decide : isPySpace ' ' = true)]
  cases nl with
  | nil => exact absurd rfl hnum
  | cons c t =>
    have hc : isPyDigit c = true := by
      simp only [List.all_cons, Bool.and_eq_true] at hdig
      exact hdig.1
    rw [show (c :: t) ++ ':' :: rest = c :: (t ++ ':' :: rest) from rfl]
    rw [List.dropWhile_cons_of_neg (by rw [digit_not_space hc]; simp)]
    have htw : (c :: (t ++ ':' :: rest)).takeWhile isPyDigit = c :: t := by
      have h := takeWhile_append_all (p := isPyDigit) (a := c :: t) (c := ':') rest hdig
        (by decide)
      rw [show (c :: t) ++ ':' :: rest = c :: (t ++ ':' :: rest) from rfl] at h
      exact h
    rw [htw]
    have hdr : (c :: (t ++ ':' :: rest)).drop (c :: t).length = ':' :: rest := by
      have h := List.drop_left (c :: t) (':' :: rest)
      rw [show (c :: t) ++ ':' :: rest = c :: (t ++ ':' :: rest) from rfl] at h
      exact h
    rw [hdr]
    rfl

theorem tryMatch_generic (nl sl dl k : List Char)
    (hnum : nl ≠ []) (hdig : nl.all isPyDigit = true)
    (hsl : sl.all (fun c => !(c == '\n')) = true)
    (hslnb : pyStripL sl ≠ [])
    (hdlnb : pyStripL dl ≠ [])
    (hd : noMarkerBefore dl k = true)
    (hk : k = [] ∨ sceneMarkerAt k = true) :
    tryMatch (sceneLit ++ ' ' :: (nl ++ ':' :: (' ' :: (sl ++ (descLit ++ (' ' :: (dl ++ k))))))) =
      some (⟨nl, sl.dropWhile isPySpace, dl.dropWhile isPySpace⟩, k) := by
  unfold tryMatch
  rw [numSplit_generic nl _ hnum hdig]
  simp only
  have hslne : sl.dropWhile isPySpace ≠ [] := nonblank_dropWhile hslnb
  obtain ⟨htwS, hdwS⟩ :=
    takeWhile_append_stop (p := isPySpace) (a := sl) (descLit ++ (' ' :: (dl ++ k))) hslne
  have hw : (' ' :: (sl ++ (descLit ++ (' ' :: (dl ++ k))))).takeWhile isPySpace =
      ' ' :: (sl ++ (descLit ++ (' ' :: (dl ++ k)))).takeWhile isPySpace := by
    rw [List.takeWhile_cons_of_pos (by decide : isPySpace ' ' = true)]
  have hafter : (' ' :: (sl ++ (descLit ++ (' ' :: (dl ++ k))))).drop
      ((' ' :: (sl ++ (descLit ++ (' ' :: (dl ++ k))))).takeWhile isPySpace).length =
      sl.dropWhile isPySpace ++ (descLit ++ (' ' :: (dl ++ k))) := by
    rw [hw, List.length_cons, List.drop_succ_cons, drop_takeWhile, hdwS]
  rw [hafter]
  have hfs : findSplit descLit
      (sl.dropWhile isPySpace ++ (descLit ++ (' ' :: (dl ++ k)))) =
      some (sl.dropWhile isPySpace, ' ' :: (dl ++ k)) :=
    findSplit_exact (' ' :: (dl ++ k)) (all_dropWhile hsl)
  rw [hfs]
  simp only
  have hdlne : dl.dropWhile isPySpace ≠ [] := nonblank_dropWhile hdlnb
  obtain ⟨htwD, hdwD⟩ := takeWhile_append_stop (p := isPySpace) (a := dl) k hdlne
  have hw2 : (' ' :: (dl ++ k)).takeWhile isPySpace =
      ' ' :: (dl ++ k).takeWhile isPySpace := by
    rw [List.takeWhile_cons_of_pos (by decide : isPySpace ' ' = true)]
  have hafter2 : (' ' :: (dl ++ k)).drop
      ((' ' :: (dl ++ k)).takeWhile isPySpace).length =
      dl.dropWhile isPySpace ++ k := by
    rw [hw2, List.length_cons, List.drop_succ_cons, drop_takeWhile, hdwD]
  rw [hafter2]
  rw [takeUntilMarker_split (noMarkerBefore_dropWhile isPySpace hd) hk]

theorem renderBlock_shape (b : Block) (k : List Char) :
    renderBlockL b ++ k =
      sceneLit ++ ' ' :: (b.numStr.toList ++ ':' :: (' ' ::
        (b.summary.toList ++ (descLit ++ (' ' :: (b.description.toList ++ k)))))) := by
  unfold renderBlockL
  simp [List.append_assoc]

theorem wfBlock_parts {b : Block} (h : wfBlock b = true) :
    b.numStr.toList ≠ [] ∧ b.numStr.toList.all isPyDigit = true ∧
    b.summary.toList.all (fun c => !(c == '\n')) = true ∧
    pyStripL b.summary.toList ≠ [] ∧ pyStripL b.description.toList ≠ [] := by
  unfold wfBlock at h
  simp only [Bool.and_eq_true, Bool.not_eq_true'] at h
  obtain ⟨⟨⟨⟨h1, h2⟩, h3⟩, h4⟩, h5⟩ := h
  refine ⟨?_, h2, h3, ?_, ?_⟩
  · intro he; rw [he] at h1; simp at h1
  · intro he; rw [he] at h4; simp at h4
  · intro he; rw [he] at h5; simp at h5

theorem tryMatch_block (b : Block) (k : List Char) (hwf : wfBlock b = true)
    (hd : noMarkerBefore b.description.toList k = true)
    (hk : k = [] ∨ sceneMarkerAt k = true) :
    tryMatch (renderBlockL b ++ k) = some (rawOf b, k) := by
  obtain ⟨h1, h2, h3, h4, h5⟩ := wfBlock_parts hwf
  rw [renderBlock_shape]
  exact tryMatch_generic _ _ _ _ h1 h2 h3 h4 h5 hd hk

theorem sceneStart_render (b : Block) (k : List Char) (hwf : wfBlock b = true) :
    sceneStartAt (renderBlockL b ++ k) = true := by
  obtain ⟨h1, h2, _, _, _⟩ := wfBlock_parts hwf
  unfold sceneStartAt
  rw [renderBlock_shape, numSplit_generic _ _ h1 h2]
  rfl

theorem sceneStart_newline (x : List Char) : sceneStartAt ('\n' :: x) = false := by
  unfold sceneStartAt numSplit?
  rw [show stripPre? sceneLit ('\n' :: x) = none from by
    unfold sceneLit stripPre?
    rw [if_neg (by decide)]]
  rfl

theorem findAll_chain : ∀ bs : List Block, wfChain bs = true →
    findAllL (renderAllL bs) = bs.map rawOf := by
  intro bs
  induction bs with
  | nil => intro _; rfl
  | cons b bs ih =>
    intro h
    unfold wfChain at h
    simp only [Bool.and_eq_true] at h
    obtain ⟨⟨hwf, hd⟩, hch⟩ := h
    have hk : nextBoundary bs = [] ∨ sceneMarkerAt (nextBoundary bs) = true := by
      cases bs with
      | nil => exact Or.inl rfl
      | cons b' bs' =>
        refine Or.inr ?_
        show sceneStartAt (renderAllL (b' :: bs')) = true
        rw [renderAll_cons]
        have hwf' : wfBlock b' = true := by
          unfold wfChain at hch
          simp only [Bool.and_eq_true] at hch
          exact hch.1.1
        exact sceneStart_render b' (nextBoundary bs') hwf'
    rw [renderAll_cons]
    rw [findAll_eq_cons (tryMatch_block b (nextBoundary bs) hwf hd hk)]
    rw [List.map_cons]
    congr 1
    cases bs with
    | nil => rfl
    | cons b' bs' =>
      show findAllL ('\n' :: renderAllL (b' :: bs')) = (b' :: bs').map rawOf
      rw [findAll_cons_none (tryMatch_none_of_no_start (sceneStart_newline _))]
      exact ih hch

/-- C2 (amended): for any text consisting of K well-formed blocks
`Scene <N>: <summary>` / next line `Description: <description>` (summary
single-line and not entirely whitespace, description not entirely
whitespace, each description running until the next `Scene <N>:` marker
or end of text and containing no such marker itself), preceded by noise
in which `Scene\s*\d+:` never matches, `parse_scenes` returns exactly K
scene records, each number being the base-10 integer parsed from its
`<N>` group and each summary and description trimmed of surrounding
whitespace.  (The claim's original quantification over arbitrary
interleaved noise is false: noise containing a `Scene <digits>:`
occurrence changes the match, see the counterexample.) -/
theorem parse_scenes_wellformed_blocks (noise : List Char) (bs : List Block)
    (hnoise : noSceneStartBefore noise (renderAllL bs) = true)
    (hwf : wfChain bs = true) :
    parseScenes ((noise ++ renderAllL bs).asString) = bs.map expectedScene ∧
    (parseScenes ((noise ++ renderAllL bs).asString)).length = bs.length := by
  have h2 : parseScenesL (noise ++ renderAllL bs) = (bs.map rawOf).map toScene := by
    unfold parseScenesL
    rw [findAll_noise noise _ hnoise, findAll_chain bs hwf]
  have hfun : ∀ b : Block, toScene (rawOf b) = expectedScene b := by
    intro b
    unfold toScene rawOf expectedScene pyStrip
    rw [pyStripL_dropWhile, pyStripL_dropWhile]
  have h3 : parseScenes ((noise ++ renderAllL bs).asString) = bs.map expectedScene := by
    show parseScenesL (noise ++ renderAllL bs) = bs.map expectedScene
    rw [h2, List.map_map]
    exact List.map_congr_left (fun b _ => hfun b)
  refine ⟨h3, ?_⟩
  rw [h3, List.length_map]

/-- witness for C2's amended statement: two well-formed blocks preceded
by marker-free noise parse to exactly the two predicted scenes. -/
theorem parse_scenes_wellformed_blocks_witness :
    parseScenes ((" some noise\n".toList ++
        renderAllL [⟨"1", "s1", "d1"⟩, ⟨"2", "s2", "d2"⟩]).asString) =
      ([⟨"1", "s1", "d1"⟩, ⟨"2", "s2", "d2"⟩] : List Block).map expectedScene ∧
    (parseScenes ((" some noise\n".toList ++
        renderAllL [⟨"1", "s1", "d1"⟩, ⟨"2", "s2", "d2"⟩]).asString)).length =
      ([⟨"1", "s1", "d1"⟩, ⟨"2", "s2", "d2"⟩] : List Block).length :=
  parse_scenes_wellformed_blocks " some noise\n".toList
    [⟨"1", "s1", "d1"⟩, ⟨"2", "s2", "d2"⟩] (by decide) (by decide)

/-- counterexample to C2 as stated: the text
`Scene 7: x\nScene 1: s\nDescription: d` contains exactly one
well-formed block (`Scene 1: s` / `Description: d`) preceded by the
non-matching noise line `Scene 7: x`, yet `parse_scenes` does not return
that block: the noise's orphan marker starts the match, and the scene
number is 7 with a garbled summary. -/
theorem parse_scenes_noise_counterexample :
    parseScenes ("Scene 7: x\n".toList ++ renderAllL [⟨"1", "s", "d"⟩]).asString =
      [⟨7, "x\nScene 1: s", "d"⟩] ∧
    parseScenes ("Scene 7: x\n".toList ++ renderAllL [⟨"1", "s", "d"⟩]).asString ≠
      [expectedScene ⟨"1", "s", "d"⟩] := by
  exact ⟨by decide, by decide⟩
